import Mathlib

/-!
Shallow embedding of the TSMT point-geometry library
(`src/assets/libs/point-libs.js`): the `TSMT$Point` value type with its
lazily cached norm, the `TSMT$ApproxEqual.compare` helper, and the
`TSMT$PointUtils` operation surface.  JavaScript numbers are modelled by
real numbers; where a claim is about non-finite values (`NaN`/`Infinity`)
or about `undefined`/`null` arguments, an explicit carrier (`Option`, a
small inductive) makes those cases representable.  Mutation of heap
objects is modelled by an explicit store passed through the "H"-suffixed
variants of the operations.
-/

namespace PointLibs

/-- A plain 2D point value `{x, y}` with real coordinates, as consumed and
produced by the `TSMT$PointUtils` functions. -/
structure Point where
  x : ℝ
  y : ℝ

/-- Euclidean distance between two points, `TSMT$PointUtils.l2Norm`
(point-libs.js lines 276-283).  The JavaScript guard `if (!p0 || !p1) return 0`
covers an absent (`undefined`) or `null` argument, modelled by `Option.none`. -/
noncomputable def l2Norm (p0 p1 : Option Point) : ℝ :=
  match p0, p1 with
  | some q0, some q1 =>
    let dx := q0.x - q1.x
    let dy := q0.y - q1.y
    Real.sqrt (dx * dx + dy * dy)
  | _, _ => 0

/-- C7: `l2Norm` returns 0 when either argument is absent/null, and the
Euclidean distance `sqrt((p0.x-p1.x)^2 + (p0.y-p1.y)^2)` when both points
are present. -/
theorem l2Norm_absent_and_present :
    (∀ p1 : Option Point, l2Norm none p1 = 0) ∧
    (∀ p0 : Option Point, l2Norm p0 none = 0) ∧
    (∀ a b : Point,
      l2Norm (some a) (some b) = Real.sqrt ((a.x - b.x) ^ 2 + (a.y - b.y) ^ 2)) := by
  refine ⟨fun p1 => by cases p1 <;> rfl, fun p0 => by cases p0 <;> rfl, fun a b => ?_⟩
  show Real.sqrt ((a.x - b.x) * (a.x - b.x) + (a.y - b.y) * (a.y - b.y)) = _
  ring_nf

/-- A JavaScript value passed to `TSMT$ApproxEqual.compare`: the argument can
be `undefined`, `null`, the number `NaN`, or an ordinary (finite) number. -/
inductive JSInput where
  | undef
  | null
  | nan
  | num (v : ℝ)

open Classical in
/-- Floating-point comparison within a relative tolerance,
`TSMT$ApproxEqual.compare` (point-libs.js lines 222-239).  The guard
`a === undefined || a == null || isNaN(a)` (and likewise for `b`) sends every
non-number input to `false`; `a == b` short-circuits to `true`; otherwise the
difference is divided by whichever input has the larger magnitude. -/
def compare (a b : JSInput) (tol : ℝ := 0.001) : Prop :=
  match a, b with
  | .num x, .num y =>
    if x = y then True
    else if |y| > |x| then |(x - y) / y| ≤ tol
    else |(x - y) / x| ≤ tol
  | _, _ => False

/-- C6: `compare` is false when either input is undefined/null/NaN, true on
exact equality, and otherwise holds exactly when the relative error
`|a - b| / max |a| |b|` is within `tol`. -/
theorem compare_spec :
    (∀ a b : JSInput, ∀ tol : ℝ,
      (a = .undef ∨ a = .null ∨ a = .nan ∨ b = .undef ∨ b = .null ∨ b = .nan) →
      ¬ compare a b tol) ∧
    (∀ x tol : ℝ, compare (.num x) (.num x) tol) ∧
    (∀ x y tol : ℝ, x ≠ y →
      (compare (.num x) (.num y) tol ↔ |x - y| / max |x| |y| ≤ tol)) := by
  refine ⟨fun a b tol h => ?_, fun x tol => ?_, fun x y tol hxy => ?_⟩
  · rcases h with rfl | rfl | rfl | rfl | rfl | rfl
    · cases b <;> simp [compare]
    · cases b <;> simp [compare]
    · cases b <;> simp [compare]
    · cases a <;> simp [compare]
    · cases a <;> simp [compare]
    · cases a <;> simp [compare]
  · simp [compare]
  · show (if x = y then True else if |y| > |x| then _ else _) ↔ _
    rw [if_neg hxy]
    by_cases hyx : |y| > |x|
    · rw [if_pos hyx, abs_div, max_eq_right hyx.le]
    · rw [if_neg hyx, abs_div, max_eq_left (le_of_not_lt hyx)]

/-- Witness for C6 at concrete inputs. -/
theorem compare_spec_witness :
    (¬ compare .undef (.num 1) 0.001) ∧
    compare (.num 2) (.num 2) 0.5 ∧
    ((1 : ℝ) ≠ 2 ∧
      (compare (.num 1) (.num 2) 1 ↔ |(1 : ℝ) - 2| / max |(1 : ℝ)| |(2 : ℝ)| ≤ 1)) :=
  ⟨compare_spec.1 .undef (.num 1) 0.001 (Or.inl rfl),
   compare_spec.2.1 2 0.5,
   by norm_num, compare_spec.2.2 1 2 1 (by norm_num)⟩

/-- A JavaScript numeric value as seen by the `typeof value == "number"` arm
of `TSMT$Point.__assign`: a finite real, `NaN`, `Infinity`, or `-Infinity`. -/
inductive JSNumberValue where
  | finite (v : ℝ)
  | nan
  | inf
  | neginf

/-- The numeric arm of `TSMT$Point.prototype.__assign` (point-libs.js lines
72-83): `!isNaN(value) && isFinite(value) ? value : 0`.  The claims quantify
over numeric assignments only, so the string/boolean arms of the `switch` are
not needed here. -/
def assignNumber : JSNumberValue → ℝ
  | .finite v => v
  | _ => 0

/-- The mutable state of a `TSMT$Point` instance: coordinates `_x`, `_y`, the
dirty flag `_invalidated`, and the cached norm `_norm`. -/
structure PointState where
  _x : ℝ
  _y : ℝ
  _invalidated : Bool
  _norm : ℝ

/-- The `x` property setter (point-libs.js lines 64-67):
`this._x = this.__assign(value); this._invalidated = true;`. -/
def PointState.setX (p : PointState) (value : JSNumberValue) : PointState :=
  ⟨assignNumber value, p._y, true, p._norm⟩

/-- The `y` property setter (point-libs.js lines 100-103). -/
def PointState.setY (p : PointState) (value : JSNumberValue) : PointState :=
  ⟨p._x, assignNumber value, true, p._norm⟩

/-- The lazily cached norm, `TSMT$Point.prototype.length` (point-libs.js
lines 113-119): recompute `Math.sqrt(x*x + y*y)` only when invalidated,
returning the (possibly fresh) cached value together with the updated state. -/
noncomputable def PointState.length (p : PointState) : ℝ × PointState :=
  if p._invalidated then
    let n := Real.sqrt (p._x * p._x + p._y * p._y)
    (n, ⟨p._x, p._y, false, n⟩)
  else (p._norm, p)

/-- C10: the coordinate setters store a finite numeric value as-is and store 0
for `NaN` or an infinity, and after any numeric write `length()` returns
`sqrt(x^2 + y^2)` of the stored coordinates, because the write invalidated the
cache. -/
theorem point_setters_keep_finite_and_invalidate :
    (∀ p : PointState, ∀ v : ℝ,
      (p.setX (.finite v))._x = v ∧ (p.setY (.finite v))._y = v) ∧
    (∀ p : PointState,
      (p.setX .nan)._x = 0 ∧ (p.setX .inf)._x = 0 ∧ (p.setX .neginf)._x = 0 ∧
      (p.setY .nan)._y = 0 ∧ (p.setY .inf)._y = 0 ∧ (p.setY .neginf)._y = 0) ∧
    (∀ p : PointState, ∀ w : JSNumberValue,
      ((p.setX w).length).1 =
        Real.sqrt ((p.setX w)._x ^ 2 + (p.setX w)._y ^ 2) ∧
      ((p.setY w).length).1 =
        Real.sqrt ((p.setY w)._x ^ 2 + (p.setY w)._y ^ 2)) := by
  refine ⟨fun p v => ⟨rfl, rfl⟩,
    fun p => ⟨rfl, rfl, rfl, rfl, rfl, rfl⟩,
    fun p w => ⟨?_, ?_⟩⟩ <;>
  · show Real.sqrt (_ * _ + _ * _) = _
    ring_nf

open Classical in
/-- Reflection of a point cloud about the infinite line through `p0` and `p1`,
`TSMT$PointUtils.reflect` (point-libs.js lines 610-639).  When the squared
direction length `d = dx*dx + dy*dy` satisfies `Math.abs(d) < 0.00000001` the
original array is returned; otherwise each point is pushed through the
Householder map built from `a = (dx*dx - dy*dy)/d` and `b = 2*dx*dy/d`. -/
noncomputable def reflect (points : List Point) (p0 p1 : Point) : List Point :=
  let x0 := p0.x
  let y0 := p0.y
  let dx := p1.x - x0
  let dy := p1.y - y0
  let d := dx * dx + dy * dy
  if |d| < 0.00000001 then points
  else
    let a := (dx * dx - dy * dy) / d
    let b := 2 * dx * dy / d
    points.map fun p =>
      let u := p.x - x0
      let v := p.y - y0
      ⟨a * u + b * v + x0, b * u - a * v + y0⟩

/-- Elementwise access into a point cloud (out-of-range reads default to the
origin; every claim constrains the index to be in range). -/
def getP (l : List Point) (i : ℕ) : Point :=
  l.getD i ⟨0, 0⟩

lemma reflect_d_nonneg (p0 p1 : Point) :
    0 ≤ (p1.x - p0.x) * (p1.x - p0.x) + (p1.y - p0.y) * (p1.y - p0.y) := by
  nlinarith [mul_self_nonneg (p1.x - p0.x), mul_self_nonneg (p1.y - p0.y)]

lemma reflect_degenerate (points : List Point) (p0 p1 : Point)
    (h : (p1.x - p0.x) * (p1.x - p0.x) + (p1.y - p0.y) * (p1.y - p0.y)
          < 0.00000001) :
    reflect points p0 p1 = points := by
  unfold reflect
  rw [if_pos]
  rwa [abs_of_nonneg (reflect_d_nonneg p0 p1)]

lemma reflect_nondegenerate (points : List Point) (p0 p1 : Point)
    (h : 0.00000001 ≤
      (p1.x - p0.x) * (p1.x - p0.x) + (p1.y - p0.y) * (p1.y - p0.y)) :
    reflect points p0 p1 =
      points.map (fun p =>
        let dx := p1.x - p0.x
        let dy := p1.y - p0.y
        let d := dx * dx + dy * dy
        let a := (dx * dx - dy * dy) / d
        let b := 2 * dx * dy / d
        let u := p.x - p0.x
        let v := p.y - p0.y
        (⟨a * u + b * v + p0.x, b * u - a * v + p0.y⟩ : Point)) := by
  unfold reflect
  rw [if_neg]
  rw [abs_of_nonneg (reflect_d_nonneg p0 p1)]
  exact not_lt.mpr h

/-- C3: for a degenerate line (squared direction length below `1e-8`)
`reflect` returns the input cloud itself; otherwise it returns a new cloud of
the same length whose `i`-th element is the Householder reflection
`(a*u + b*v + p0.x, b*u - a*v + p0.y)` of the `i`-th input point, with
`a = (dx^2 - dy^2)/d`, `b = 2*dx*dy/d`, `(u,v)` the offset from `p0`. -/
theorem reflect_spec (points : List Point) (p0 p1 : Point) :
    ((p1.x - p0.x) * (p1.x - p0.x) + (p1.y - p0.y) * (p1.y - p0.y)
        < 0.00000001 →
      reflect points p0 p1 = points) ∧
    (0.00000001 ≤
        (p1.x - p0.x) * (p1.x - p0.x) + (p1.y - p0.y) * (p1.y - p0.y) →
      (reflect points p0 p1).length = points.length ∧
      ∀ i, i < points.length →
        getP (reflect points p0 p1) i =
          (⟨((p1.x - p0.x) * (p1.x - p0.x) - (p1.y - p0.y) * (p1.y - p0.y)) /
                ((p1.x - p0.x) * (p1.x - p0.x) + (p1.y - p0.y) * (p1.y - p0.y)) *
                ((getP points i).x - p0.x) +
              2 * (p1.x - p0.x) * (p1.y - p0.y) /
                ((p1.x - p0.x) * (p1.x - p0.x) + (p1.y - p0.y) * (p1.y - p0.y)) *
                ((getP points i).y - p0.y) + p0.x,
            2 * (p1.x - p0.x) * (p1.y - p0.y) /
                ((p1.x - p0.x) * (p1.x - p0.x) + (p1.y - p0.y) * (p1.y - p0.y)) *
                ((getP points i).x - p0.x) -
              ((p1.x - p0.x) * (p1.x - p0.x) - (p1.y - p0.y) * (p1.y - p0.y)) /
                ((p1.x - p0.x) * (p1.x - p0.x) + (p1.y - p0.y) * (p1.y - p0.y)) *
                ((getP points i).y - p0.y) + p0.y⟩ : Point)) := by
  refine ⟨reflect_degenerate points p0 p1, fun h => ?_⟩
  rw [reflect_nondegenerate points p0 p1 h]
  refine ⟨List.length_map _ _, fun i hi => ?_⟩
  unfold getP
  rw [List.getD_eq_getElem?_getD, List.getD_eq_getElem?_getD,
    List.getElem?_map]
  rw [List.getElem?_eq_getElem hi]
  rfl

/-- Witness for C3: a singleton cloud reflected about the degenerate line
through two copies of the origin, and about the y-axis. -/
theorem reflect_spec_witness :
    reflect [(⟨3, 4⟩ : Point)] ⟨0, 0⟩ ⟨0, 0⟩ = [(⟨3, 4⟩ : Point)] ∧
    getP (reflect [(⟨3, 4⟩ : Point)] ⟨0, 0⟩ ⟨0, 1⟩) 0 =
      (⟨(0 * 0 - 1 * 1) / (0 * 0 + 1 * 1) * 3 + 2 * 0 * 1 / (0 * 0 + 1 * 1) * 4 + 0,
        2 * 0 * 1 / (0 * 0 + 1 * 1) * 3 - (0 * 0 - 1 * 1) / (0 * 0 + 1 * 1) * 4 + 0⟩
        : Point) := by
  constructor
  · exact (reflect_spec [⟨3, 4⟩] ⟨0, 0⟩ ⟨0, 0⟩).1 (by norm_num)
  · have h := ((reflect_spec [⟨3, 4⟩] ⟨0, 0⟩ ⟨0, 1⟩).2 (by norm_num)).2 0
      (by norm_num)
    simpa [getP] using h

lemma reflect_reflect_eq (points : List Point) (p0 p1 : Point)
    (h : 0.00000001 ≤
      (p1.x - p0.x) * (p1.x - p0.x) + (p1.y - p0.y) * (p1.y - p0.y)) :
    reflect (reflect points p0 p1) p0 p1 = points := by
  have hd : (p1.x - p0.x) * (p1.x - p0.x) + (p1.y - p0.y) * (p1.y - p0.y) ≠ 0 := by
    intro h0
    rw [h0] at h
    norm_num at h
  rw [reflect_nondegenerate _ p0 p1 h, reflect_nondegenerate _ p0 p1 h,
    List.map_map]
  have hid : ∀ p : Point,
      (fun p : Point =>
        let dx := p1.x - p0.x
        let dy := p1.y - p0.y
        let d := dx * dx + dy * dy
        let a := (dx * dx - dy * dy) / d
        let b := 2 * dx * dy / d
        let u := p.x - p0.x
        let v := p.y - p0.y
        (⟨a * u + b * v + p0.x, b * u - a * v + p0.y⟩ : Point)) ∘
      (fun p : Point =>
        let dx := p1.x - p0.x
        let dy := p1.y - p0.y
        let d := dx * dx + dy * dy
        let a := (dx * dx - dy * dy) / d
        let b := 2 * dx * dy / d
        let u := p.x - p0.x
        let v := p.y - p0.y
        (⟨a * u + b * v + p0.x, b * u - a * v + p0.y⟩ : Point)) = id := by
    intro p
    funext q
    show (⟨_, _⟩ : Point) = q
    obtain ⟨qx, qy⟩ := q
    simp only [Point.mk.injEq, id]
    constructor <;> field_simp <;> ring
  rw [hid ⟨0, 0⟩, List.map_id]

/-- C4: reflecting a cloud twice about the same non-degenerate line returns
every element to within `1e-9` of the original (in this real-number model the
round trip is exact, so the bound holds). -/
theorem reflect_involution (points : List Point) (p0 p1 : Point)
    (h : 0.00000001 ≤
      (p1.x - p0.x) * (p1.x - p0.x) + (p1.y - p0.y) * (p1.y - p0.y))
    (i : ℕ) (hi : i < points.length) :
    |(getP (reflect (reflect points p0 p1) p0 p1) i).x - (getP points i).x|
        ≤ 0.000000001 ∧
    |(getP (reflect (reflect points p0 p1) p0 p1) i).y - (getP points i).y|
        ≤ 0.000000001 := by
  rw [reflect_reflect_eq points p0 p1 h]
  norm_num

/-- Witness for C4: a concrete singleton cloud and the vertical line through
the origin. -/
theorem reflect_involution_witness :
    |(getP (reflect (reflect [(⟨1, 0⟩ : Point)] ⟨0, 0⟩ ⟨0, 1⟩) ⟨0, 0⟩ ⟨0, 1⟩) 0).x -
        (getP [(⟨1, 0⟩ : Point)] 0).x| ≤ 0.000000001 ∧
    |(getP (reflect (reflect [(⟨1, 0⟩ : Point)] ⟨0, 0⟩ ⟨0, 1⟩) ⟨0, 0⟩ ⟨0, 1⟩) 0).y -
        (getP [(⟨1, 0⟩ : Point)] 0).y| ≤ 0.000000001 :=
  reflect_involution [⟨1, 0⟩] ⟨0, 0⟩ ⟨0, 1⟩ (by norm_num) 0 (by norm_num)

/-- Distance from `p` to the infinite line through `p0` and `p1`,
`TSMT$PointUtils.pointToLineDistancee` (point-libs.js lines 511-525): scalar
projection `b = c1/c2` of `w` onto `v`, then the norm of the residual. -/
noncomputable def pointToLineDistancee (p0 p1 p : Point) : ℝ :=
  let vx := p1.x - p0.x
  let vy := p1.y - p0.y
  let wx := p.x - p0.x
  let wy := p.y - p0.y
  let c1 := vx * wx + vy * wy
  let c2 := vx * vx + vy * vy
  let b := c1 / c2
  let px := p0.x + b * vx
  let py := p0.y + b * vy
  let dx := p.x - px
  let dy := p.y - py
  Real.sqrt (dx * dx + dy * dy)

open Classical in
/-- Distance from `p` to the segment from `p0` to `p1`,
`TSMT$PointUtils.pointToSegmentDistance` (point-libs.js lines 538-559): clamp
to the nearer endpoint when the projection parameter falls outside `[0,1]`,
perpendicular residual otherwise. -/
noncomputable def pointToSegmentDistance (p0 p1 p : Point) : ℝ :=
  let vx := p1.x - p0.x
  let vy := p1.y - p0.y
  let wx := p.x - p0.x
  let wy := p.y - p0.y
  let c1 := wx * vx + wy * vy
  if c1 ≤ 0 then Real.sqrt (wx * wx + wy * wy)
  else
    let c2 := vx * vx + vy * vy
    if c2 ≤ c1 then
      Real.sqrt ((p1.x - p.x) * (p1.x - p.x) + (p1.y - p.y) * (p1.y - p.y))
    else
      let b := c1 / c2
      let px := p0.x + b * vx
      let py := p0.y + b * vy
      let dx := p.x - px
      let dy := p.y - py
      Real.sqrt (dx * dx + dy * dy)

lemma line_residual_sq (vx vy wx wy : ℝ) (hc2 : vx * vx + vy * vy ≠ 0) :
    (wx - (vx * wx + vy * wy) / (vx * vx + vy * vy) * vx) *
        (wx - (vx * wx + vy * wy) / (vx * vx + vy * vy) * vx) +
      (wy - (vx * wx + vy * wy) / (vx * vx + vy * vy) * vy) *
        (wy - (vx * wx + vy * wy) / (vx * vx + vy * vy) * vy) =
    (wx * wx + wy * wy) -
      (vx * wx + vy * wy) * (vx * wx + vy * wy) / (vx * vx + vy * vy) := by
  field_simp
  ring

/-- C5: for distinct endpoints the clamped segment distance is never below the
perpendicular distance to the infinite line. -/
theorem segment_distance_ge_line_distance (p0 p1 p : Point) (h : p0 ≠ p1) :
    pointToLineDistancee p0 p1 p ≤ pointToSegmentDistance p0 p1 p := by
  obtain ⟨x0, y0⟩ := p0
  obtain ⟨x1, y1⟩ := p1
  obtain ⟨px, py⟩ := p
  set vx := x1 - x0 with hvx
  set vy := y1 - y0 with hvy
  set wx := px - x0 with hwx
  set wy := py - y0 with hwy
  have hc2pos : 0 < vx * vx + vy * vy := by
    rcases lt_or_eq_of_le (add_nonneg (mul_self_nonneg vx) (mul_self_nonneg vy))
      with hlt | heq
    · linarith
    · exfalso
      have hvx0 : vx = 0 := by nlinarith [mul_self_nonneg vx, mul_self_nonneg vy]
      have hvy0 : vy = 0 := by nlinarith [mul_self_nonneg vx, mul_self_nonneg vy]
      apply h
      have hx : x1 = x0 := by rw [hvx] at hvx0; linarith
      have hy : y1 = y0 := by rw [hvy] at hvy0; linarith
      rw [hx, hy]
  have hc2 : vx * vx + vy * vy ≠ 0 := ne_of_gt hc2pos
  have hline : pointToLineDistancee ⟨x0, y0⟩ ⟨x1, y1⟩ ⟨px, py⟩ =
      Real.sqrt ((wx * wx + wy * wy) -
        (vx * wx + vy * wy) * (vx * wx + vy * wy) / (vx * vx + vy * vy)) := by
    show Real.sqrt
        ((px - (x0 + (vx * wx + vy * wy) / (vx * vx + vy * vy) * vx)) *
            (px - (x0 + (vx * wx + vy * wy) / (vx * vx + vy * vy) * vx)) +
          (py - (y0 + (vx * wx + vy * wy) / (vx * vx + vy * vy) * vy)) *
            (py - (y0 + (vx * wx + vy * wy) / (vx * vx + vy * vy) * vy))) = _
    rw [← line_residual_sq vx vy wx wy hc2]
    congr 1 <;> rw [hwx, hwy] <;> ring
  rw [hline]
  show _ ≤ (if wx * vx + wy * vy ≤ 0 then _ else _)
  by_cases hc1 : wx * vx + wy * vy ≤ 0
  · rw [if_pos hc1]
    apply Real.sqrt_le_sqrt
    have : 0 ≤ (vx * wx + vy * wy) * (vx * wx + vy * wy) / (vx * vx + vy * vy) :=
      div_nonneg (mul_self_nonneg _) hc2pos.le
    linarith
  · rw [if_neg hc1]
    by_cases hc2c1 : vx * vx + vy * vy ≤ wx * vx + wy * vy
    · rw [if_pos hc2c1]
      apply Real.sqrt_le_sqrt
      have hrw : (x1 - px) * (x1 - px) + (y1 - py) * (y1 - py) =
          (wx - vx) * (wx - vx) + (wy - vy) * (wy - vy) := by
        rw [hwx, hwy, hvx, hvy]; ring
      rw [hrw]
      have key : (wx - vx) * (wx - vx) + (wy - vy) * (wy - vy) -
          ((wx * wx + wy * wy) -
            (vx * wx + vy * wy) * (vx * wx + vy * wy) / (vx * vx + vy * vy)) =
          ((vx * vx + vy * vy) - (vx * wx + vy * wy)) *
            ((vx * vx + vy * vy) - (vx * wx + vy * wy)) / (vx * vx + vy * vy) := by
        field_simp
        ring
      have hnn : 0 ≤ ((vx * vx + vy * vy) - (vx * wx + vy * wy)) *
          ((vx * vx + vy * vy) - (vx * wx + vy * wy)) / (vx * vx + vy * vy) :=
        div_nonneg (mul_self_nonneg _) hc2pos.le
      linarith [key, hnn]
    · rw [if_neg hc2c1]
      apply le_of_eq
      show _ = Real.sqrt
        ((px - (x0 + (wx * vx + wy * vy) / (vx * vx + vy * vy) * vx)) *
            (px - (x0 + (wx * vx + wy * vy) / (vx * vx + vy * vy) * vx)) +
          (py - (y0 + (wx * vx + wy * vy) / (vx * vx + vy * vy) * vy)) *
            (py - (y0 + (wx * vx + wy * vy) / (vx * vx + vy * vy) * vy)))
      have hcomm : wx * vx + wy * vy = vx * wx + vy * wy := by ring
      rw [hcomm, ← line_residual_sq vx vy wx wy hc2]
      congr 1 <;> rw [hwx, hwy] <;> ring

/-- Witness for C5: segment `(0,0)-(1,0)` and test point `(2,1)`. -/
theorem segment_distance_ge_line_distance_witness :
    pointToLineDistancee ⟨0, 0⟩ ⟨1, 0⟩ ⟨2, 1⟩ ≤
      pointToSegmentDistance ⟨0, 0⟩ ⟨1, 0⟩ ⟨2, 1⟩ :=
  segment_distance_ge_line_distance ⟨0, 0⟩ ⟨1, 0⟩ ⟨2, 1⟩ (by
    intro hq
    have := congrArg Point.x hq
    norm_num at this)

/-- A JavaScript floating-point result with non-finite values tracked:
`some v` is a finite number, `none` stands for `NaN` or `±Infinity`
(overflow of finite arithmetic is disregarded, as the header of the library
states it does not handle overflow/underflow). -/
def RVal := Option ℝ

/-- Addition with non-finite propagation. -/
def radd (a b : RVal) : RVal := Option.bind a fun x => Option.map (fun y => x + y) b

/-- Subtraction with non-finite propagation. -/
def rsub (a b : RVal) : RVal := Option.bind a fun x => Option.map (fun y => x - y) b

/-- Multiplication with non-finite propagation. -/
def rmul (a b : RVal) : RVal := Option.bind a fun x => Option.map (fun y => x * y) b

open Classical in
/-- Division: dividing by zero yields `NaN` or `±Infinity` in JavaScript,
both tracked as `none`. -/
noncomputable def rdiv (a b : RVal) : RVal :=
  match a, b with
  | some x, some y => if y = 0 then none else some (x / y)
  | _, _ => none

open Classical in
/-- Square root `Math.sqrt`: `NaN` for a negative argument, propagates non-finite input. -/
noncomputable def rsqrt (a : RVal) : RVal :=
  match a with
  | some x => if x < 0 then none else some (Real.sqrt x)
  | none => none

/-- The JavaScript comparison `a <= b` where `a` may be non-finite: any
comparison against `NaN` is false. -/
def rle (a : RVal) (b : ℝ) : Prop :=
  match a with
  | some x => x ≤ b
  | none => False

/-- The comparison `a <= b` between two tracked values; false when either is
`NaN`. -/
def rleV (a b : RVal) : Prop :=
  match a, b with
  | some x, some y => x ≤ y
  | _, _ => False

open Classical in
/-- Transliteration of `TSMT$PointUtils.pointToLineDistancee` over the
non-finite-tracking carrier (point-libs.js lines 511-525). -/
noncomputable def pointToLineDistanceeN (p0 p1 p : Point) : RVal :=
  let vx := rsub (some p1.x) (some p0.x)
  let vy := rsub (some p1.y) (some p0.y)
  let wx := rsub (some p.x) (some p0.x)
  let wy := rsub (some p.y) (some p0.y)
  let c1 := radd (rmul vx wx) (rmul vy wy)
  let c2 := radd (rmul vx vx) (rmul vy vy)
  let b := rdiv c1 c2
  let px := radd (some p0.x) (rmul b vx)
  let py := radd (some p0.y) (rmul b vy)
  let dx := rsub (some p.x) px
  let dy := rsub (some p.y) py
  rsqrt (radd (rmul dx dx) (rmul dy dy))

open Classical in
/-- Transliteration of `TSMT$PointUtils.pointToSegmentDistance` over the
non-finite-tracking carrier (point-libs.js lines 538-559). -/
noncomputable def pointToSegmentDistanceN (p0 p1 p : Point) : RVal :=
  let vx := rsub (some p1.x) (some p0.x)
  let vy := rsub (some p1.y) (some p0.y)
  let wx := rsub (some p.x) (some p0.x)
  let wy := rsub (some p.y) (some p0.y)
  let c1 := radd (rmul wx vx) (rmul wy vy)
  if rle c1 0 then rsqrt (radd (rmul wx wx) (rmul wy wy))
  else
    let c2 := radd (rmul vx vx) (rmul vy vy)
    if rleV c2 c1 then
      let wx1 := rsub (some p1.x) (some p.x)
      let wy1 := rsub (some p1.y) (some p.y)
      rsqrt (radd (rmul wx1 wx1) (rmul wy1 wy1))
    else
      let b := rdiv c1 c2
      let px := radd (some p0.x) (rmul b vx)
      let py := radd (some p0.y) (rmul b vy)
      let dx := rsub (some p.x) px
      let dy := rsub (some p.y) py
      rsqrt (radd (rmul dx dx) (rmul dy dy))

lemma rsqrt_nonneg_arg (v : ℝ) (hv : 0 ≤ v) : rsqrt (some v) = some (Real.sqrt v) := by
  show (if v < 0 then none else some (Real.sqrt v)) = _
  rw [if_neg (not_lt.mpr hv)]

lemma rdiv_zero_denom (a : RVal) (v : ℝ) (hv : v = 0) : rdiv a (some v) = none := by
  match a with
  | none => rfl
  | some x =>
    show (if v = 0 then none else some (x / v)) = none
    rw [if_pos hv]

/-- C9: on a degenerate segment (`p0` and `p1` coordinatewise equal) the
first clamp `c1 <= 0` fires and `pointToSegmentDistance` returns the finite
Euclidean distance from `p` to `p0`, while `pointToLineDistancee` on the same
input divides by zero and produces a non-finite value. -/
theorem segment_distance_degenerate (p0 p1 p : Point)
    (hx : p0.x = p1.x) (hy : p0.y = p1.y) :
    pointToSegmentDistanceN p0 p1 p =
      some (Real.sqrt ((p.x - p0.x) * (p.x - p0.x) + (p.y - p0.y) * (p.y - p0.y))) ∧
    pointToLineDistanceeN p0 p1 p = none := by
  obtain ⟨x0, y0⟩ := p0
  obtain ⟨x1, y1⟩ := p1
  simp only at hx hy
  subst hx
  subst hy
  constructor
  · have hc1 : rle (radd
        (rmul (rsub (some p.x) (some x0)) (rsub (some x0) (some x0)))
        (rmul (rsub (some p.y) (some y0)) (rsub (some y0) (some y0)))) 0 := by
      show (p.x - x0) * (x0 - x0) + (p.y - y0) * (y0 - y0) ≤ 0
      exact le_of_eq (by ring)
    have hnn : 0 ≤ (p.x - x0) * (p.x - x0) + (p.y - y0) * (p.y - y0) := by
      nlinarith [mul_self_nonneg (p.x - x0), mul_self_nonneg (p.y - y0)]
    simp only [pointToSegmentDistanceN]
    rw [if_pos hc1]
    show rsqrt (some ((p.x - x0) * (p.x - x0) + (p.y - y0) * (p.y - y0))) = _
    rw [rsqrt_nonneg_arg _ hnn]
  · have hb : rdiv
        (radd (rmul (rsub (some x0) (some x0)) (rsub (some p.x) (some x0)))
          (rmul (rsub (some y0) (some y0)) (rsub (some p.y) (some y0))))
        (radd (rmul (rsub (some x0) (some x0)) (rsub (some x0) (some x0)))
          (rmul (rsub (some y0) (some y0)) (rsub (some y0) (some y0)))) = none := by
      show rdiv _ (some ((x0 - x0) * (x0 - x0) + (y0 - y0) * (y0 - y0))) = none
      exact rdiv_zero_denom _ _ (by ring)
    simp only [pointToLineDistanceeN]
    rw [hb]
    rfl

/-- Witness for C9: the degenerate segment at `(1,2)` and test point `(4,6)`. -/
theorem segment_distance_degenerate_witness :
    pointToSegmentDistanceN ⟨1, 2⟩ ⟨1, 2⟩ ⟨4, 6⟩ =
      some (Real.sqrt (((4 : ℝ) - 1) * ((4 : ℝ) - 1) + ((6 : ℝ) - 2) * ((6 : ℝ) - 2))) ∧
    pointToLineDistanceeN ⟨1, 2⟩ ⟨1, 2⟩ ⟨4, 6⟩ = none :=
  segment_distance_degenerate ⟨1, 2⟩ ⟨1, 2⟩ ⟨4, 6⟩ rfl rfl

/-- The JavaScript `Math.atan2(y, x)`: the argument of the complex number
`x + y*i`, with `atan2 0 0 = 0` (matching `Math.atan2(0, 0)`). -/
noncomputable def atan2 (y x : ℝ) : ℝ :=
  Complex.arg ⟨x, y⟩

/-- Angle of the direction from `p0` to `p1`, `TSMT$PointUtils.angle`
(point-libs.js lines 297-301).  The `toDegree` flag defaults to `true`, in
which case the `atan2` value is converted to degrees. -/
noncomputable def angle (p0 p1 : Point) (toDegree : Bool := true) : ℝ :=
  let value := atan2 (p1.y - p0.y) (p1.x - p0.x)
  if toDegree then 180 * value / Real.pi else value

/-- Projection of `p0` by distance `d` toward `p1`, `TSMT$PointUtils.project`
(point-libs.js lines 422-426).  The source calls `this.angle(p0, p1)` without
the third argument, so the angle arrives in degrees and is handed to
`Math.cos`/`Math.sin`, which interpret their argument in radians. -/
noncomputable def project (p0 p1 : Point) (d : ℝ) : Point :=
  let a := angle p0 p1
  ⟨p0.x + Real.cos a * d, p0.y + Real.sin a * d⟩

lemma atan2_one_zero : atan2 1 0 = Real.pi / 2 := by
  have h : (⟨0, 1⟩ : ℂ) = Complex.I := by
    apply Complex.ext <;> simp
  unfold atan2
  rw [h, Complex.arg_I]

lemma angle_up_deg : angle ⟨0, 0⟩ ⟨0, 1⟩ = 90 := by
  unfold angle
  rw [if_pos rfl]
  show 180 * atan2 (1 - 0) (0 - 0) / Real.pi = 90
  norm_num [atan2_one_zero]
  field_simp
  ring

lemma cos_ninety_ne_zero : Real.cos 90 ≠ 0 := by
  intro h
  rw [Real.cos_eq_zero_iff] at h
  obtain ⟨k, hk⟩ := h
  have hk0 : (2 * (k : ℝ) + 1) ≠ 0 := by
    intro h0
    rw [h0] at hk
    norm_num at hk
  have hpi : Real.pi = 180 / (2 * (k : ℝ) + 1) := by
    field_simp at hk ⊢
    linarith
  have : Irrational Real.pi := irrational_pi
  rw [hpi] at this
  have hq : ((180 / (2 * (k : ℚ) + 1) : ℚ) : ℝ) = 180 / (2 * (k : ℝ) + 1) := by
    push_cast
    norm_num
  exact this ⟨180 / (2 * (k : ℚ) + 1), hq⟩

/-- C2 (failing-input evaluation): for `p0 = (0,0)`, `p1 = (0,1)`, `d = 1` the
code computes the angle in degrees (90) and feeds it to cosine, so the
resulting x-coordinate is `cos 90` (radians), which differs from the
value the claim specifies, `p0.x + cos(atan2(p1.y-p0.y, p1.x-p0.x)) * d = cos(pi/2) = 0`. -/
theorem project_degrees_bug :
    (project ⟨0, 0⟩ ⟨0, 1⟩ 1).x = Real.cos 90 ∧
    (project ⟨0, 0⟩ ⟨0, 1⟩ 1).x ≠
      (0 : ℝ) + Real.cos (atan2 ((1 : ℝ) - 0) ((0 : ℝ) - 0)) * 1 := by
  have hx : (project ⟨0, 0⟩ ⟨0, 1⟩ 1).x = Real.cos 90 := by
    show (0 : ℝ) + Real.cos (angle ⟨0, 0⟩ ⟨0, 1⟩) * 1 = _
    rw [angle_up_deg]
    ring
  refine ⟨hx, ?_⟩
  rw [hx]
  have hclaim : (0 : ℝ) + Real.cos (atan2 ((1 : ℝ) - 0) ((0 : ℝ) - 0)) * 1 = 0 := by
    norm_num [atan2_one_zero]
  rw [hclaim]
  exact cos_ninety_ne_zero

/-- Numeric index access `p[i]` on a `TSMT$Point` object: the class defines
only the properties `_x`, `_y`, `_invalidated`, `_norm` and prototype methods,
so any numeric key reads `undefined` (`none`); the subsequent `.x` access on
that `undefined` then throws a `TypeError`. -/
def numericIndexAccess (p : Point) (i : ℕ) : Option Point :=
  none

open Classical in
/-- The loop of `TSMT$PointUtils.closestPointToLine` (point-libs.js lines
490-497), iterating from `i = 1`: `p = points[i]` is fetched, but the distance
is computed from `p[i].x` and `p[i].y` — re-indexing through the already
fetched point — so the body dereferences `undefined` and the call aborts
(`none`) as soon as the loop runs an iteration. -/
noncomputable def closestLoop (a b c : ℝ) : List Point → ℕ → ℕ → ℝ → Option ℕ
  | [], _, minIndex, _ => some minIndex
  | p :: rest, i, minIndex, minV =>
    match numericIndexAccess p i with
    | none => none
    | some q =>
      let d := |a * q.x + b * q.y + c|
      if d < minV then closestLoop a b c rest (i + 1) i d
      else closestLoop a b c rest (i + 1) minIndex minV

/-- Index of the cloud point closest to the infinite line through `p0`, `p1`,
`TSMT$PointUtils.closestPointToLine` (point-libs.js lines 480-499).  The
initial minimum reads `points[0].x`/`points[0].y` directly (throwing on an
empty array, modelled as `none`); the loop then runs over indices `1..len-1`. -/
noncomputable def closestPointToLine (points : List Point) (p0 p1 : Point) :
    Option ℕ :=
  let a := p0.y - p1.y
  let b := p1.x - p0.x
  let c := p0.x * p1.y - p1.x * p0.y
  match points with
  | [] => none
  | q0 :: rest => closestLoop a b c rest 1 0 (|a * q0.x + b * q0.y + c|)

/-- C1 (failing-input evaluation): on the scenario input given by the spec — the
cloud `[(0,0), (10,10)]` and the horizontal line through `(0,5)` and `(10,5)`
— the implementation aborts with a `TypeError` (modelled as `none`) instead
of returning the lowest minimizing index `0`, because the loop body re-indexes
`p[i]` through the fetched point; a one-point cloud never enters the loop and
returns index `0`. -/
theorem closestPointToLine_crashes :
    closestPointToLine [⟨0, 0⟩, ⟨10, 10⟩] ⟨0, 5⟩ ⟨10, 5⟩ = none ∧
    closestPointToLine [⟨0, 0⟩] ⟨0, 5⟩ ⟨10, 5⟩ = some 0 :=
  ⟨rfl, rfl⟩

/-- Distance ratio `l2Norm(p0,p2) / l2Norm(p0,p1)`, `TSMT$PointUtils.ratio`
(point-libs.js lines 313-317). -/
noncomputable def ratio (p0 p1 p2 : Point) : ℝ :=
  let l1 := l2Norm (some p0) (some p1)
  let l2 := l2Norm (some p0) (some p2)
  l2 / l1

/-- Approximate parallelism of two segments via their angles,
`TSMT$PointUtils.isParallel` (point-libs.js lines 331-335). -/
noncomputable def isParallel (p0 p1 p2 p3 : Point) : Prop :=
  let a1 := angle p0 p1
  let a2 := angle p2 p3
  compare (.num a1) (.num a2) 0.0001

open Classical in
/-- Membership of `p` on the closed segment `[p0, p1]`,
`TSMT$PointUtils.pointOnLine` (point-libs.js lines 347-394): endpoint
coincidence first (`tx = 0` / `ty = 1` flags), then axis special cases, then
comparison of the two parametric values. -/
noncomputable def pointOnLine (p0 p1 p : Point) : Prop :=
  let dx0 := p.x - p0.x
  let dy0 := p.y - p0.y
  let atEnd0 := |dx0| < 0.00000001 ∧ |dy0| < 0.00000001
  let dx1 := p1.x - p.x
  let dy1 := p1.y - p.y
  let atEnd1 := |dx1| < 0.00000001 ∧ |dy1| < 0.00000001
  if atEnd0 ∨ atEnd1 then True
  else
    let dx := p1.x - p0.x
    let dy := p1.y - p0.y
    if |dx| < 0.00000001 then
      if |dy| < 0.00000001 then False
      else
        let ty := dy0 / (p1.y - p0.y)
        0 ≤ ty ∧ ty ≤ 1
    else
      let tx := dx0 / (p1.x - p0.x)
      if |dy| < 0.00000001 then 0 ≤ tx ∧ tx ≤ 1
      else
        let ty := dy0 / (p1.y - p0.y)
        if 0 ≤ tx ∧ tx ≤ 1 ∧ 0 ≤ ty ∧ ty ≤ 1 then
          compare (.num tx) (.num ty) 0.001
        else False

/-- Strict left-of-line test via the signed area, `TSMT$PointUtils.isLeft`
(point-libs.js lines 406-409). -/
def isLeft (p0 p1 p2 : Point) : Prop :=
  (p1.x - p0.x) * (p2.y - p0.y) - (p2.x - p0.x) * (p1.y - p0.y) > 0

open Classical in
/-- Perpendicular projection of `p` onto the segment `[p0, p1]`, clamped,
`TSMT$PointUtils.pointSegmentProjection` (point-libs.js lines 573-597). -/
noncomputable def pointSegmentProjection (p0 p1 p : Point) : Point :=
  let p0x := p0.x
  let p0y := p0.y
  let p1x := p1.x
  let p1y := p1.y
  let px := p.x
  let py := p.y
  let dx := p1x - p0x
  let dy := p1y - p0y
  let d := dx * dx + dy * dy
  if d < 0.0000001 then ⟨p0x, p0y⟩
  else
    let t := ((px - p0x) * (p1x - p0x) + (py - p0y) * (p1y - p0y)) / d
    if t < 0 then ⟨p0x, p0y⟩
    else if t > 1 then ⟨p1x, p1y⟩
    else ⟨(1 - t) * p0x + t * p1x, (1 - t) * p0y + t * p1y⟩

/-- A store of `TSMT$Point` heap objects, indexed by object identity.  The
"H"-suffixed operation variants below transliterate the library with every
property read going through the store and return the final store alongside
the result; a property write would have to produce an updated store, and the
source contains none. -/
abbrev Store := ℕ → Point

/-- Store-passing `l2Norm`. -/
noncomputable def l2NormH (s : Store) (p0 p1 : Option ℕ) : ℝ × Store :=
  match p0, p1 with
  | some i0, some i1 =>
    let dx := (s i0).x - (s i1).x
    let dy := (s i0).y - (s i1).y
    (Real.sqrt (dx * dx + dy * dy), s)
  | _, _ => (0, s)

/-- Store-passing `angle`. -/
noncomputable def angleH (s : Store) (i0 i1 : ℕ) (toDegree : Bool := true) :
    ℝ × Store :=
  let value := atan2 ((s i1).y - (s i0).y) ((s i1).x - (s i0).x)
  (if toDegree then 180 * value / Real.pi else value, s)

/-- Store-passing `ratio`, threading the store through the two `l2Norm`
calls. -/
noncomputable def ratioH (s : Store) (i0 i1 i2 : ℕ) : ℝ × Store :=
  let r1 := l2NormH s (some i0) (some i1)
  let r2 := l2NormH r1.2 (some i0) (some i2)
  (r2.1 / r1.1, r2.2)

/-- Store-passing `isParallel`, threading the store through the two `angle`
calls. -/
noncomputable def isParallelH (s : Store) (i0 i1 i2 i3 : ℕ) : Prop × Store :=
  let a1 := angleH s i0 i1
  let a2 := angleH a1.2 i2 i3
  (compare (.num a1.1) (.num a2.1) 0.0001, a2.2)

open Classical in
/-- Store-passing `pointOnLine`. -/
noncomputable def pointOnLineH (s : Store) (i0 i1 ip : ℕ) : Prop × Store :=
  let dx0 := (s ip).x - (s i0).x
  let dy0 := (s ip).y - (s i0).y
  let atEnd0 := |dx0| < 0.00000001 ∧ |dy0| < 0.00000001
  let dx1 := (s i1).x - (s ip).x
  let dy1 := (s i1).y - (s ip).y
  let atEnd1 := |dx1| < 0.00000001 ∧ |dy1| < 0.00000001
  (if atEnd0 ∨ atEnd1 then True
   else
     let dx := (s i1).x - (s i0).x
     let dy := (s i1).y - (s i0).y
     if |dx| < 0.00000001 then
       if |dy| < 0.00000001 then False
       else
         let ty := dy0 / ((s i1).y - (s i0).y)
         0 ≤ ty ∧ ty ≤ 1
     else
       let tx := dx0 / ((s i1).x - (s i0).x)
       if |dy| < 0.00000001 then 0 ≤ tx ∧ tx ≤ 1
       else
         let ty := dy0 / ((s i1).y - (s i0).y)
         if 0 ≤ tx ∧ tx ≤ 1 ∧ 0 ≤ ty ∧ ty ≤ 1 then
           compare (.num tx) (.num ty) 0.001
         else False, s)

/-- Store-passing `isLeft`. -/
def isLeftH (s : Store) (i0 i1 i2 : ℕ) : Prop × Store :=
  ((((s i1).x - (s i0).x) * ((s i2).y - (s i0).y) -
      ((s i2).x - (s i0).x) * ((s i1).y - (s i0).y) > 0), s)

/-- Store-passing `project`, threading the store through the `angle` call. -/
noncomputable def projectH (s : Store) (i0 i1 : ℕ) (d : ℝ) : Point × Store :=
  let r := angleH s i0 i1
  (⟨(r.2 i0).x + Real.cos r.1 * d, (r.2 i0).y + Real.sin r.1 * d⟩, r.2)

open Classical in
/-- The loop of `bottomLeft` (point-libs.js lines 440-445) over the store,
comparing each point against the current best `points[index]`. -/
noncomputable def blLoopH (s : Store) (cloud : List ℕ) :
    List ℕ → ℕ → ℕ → ℕ
  | [], _, index => index
  | j :: rest, i, index =>
    let pt := s j
    let best := s (cloud.getD index 0)
    if pt.y < best.y ∨ (pt.y ≤ best.y ∧ pt.x < best.x) then
      blLoopH s cloud rest (i + 1) i
    else blLoopH s cloud rest (i + 1) index

/-- Store-passing `bottomLeft` (point-libs.js lines 435-447). -/
noncomputable def bottomLeftH (s : Store) (cloud : List ℕ) : ℕ × Store :=
  (blLoopH s cloud cloud 0 0, s)

open Classical in
/-- The loop of `bottomRight` (point-libs.js lines 461-466) over the store. -/
noncomputable def brLoopH (s : Store) (cloud : List ℕ) :
    List ℕ → ℕ → ℕ → ℕ
  | [], _, index => index
  | j :: rest, i, index =>
    let pt := s j
    let best := s (cloud.getD index 0)
    if pt.y < best.y ∨ (pt.y ≤ best.y ∧ pt.x > best.x) then
      brLoopH s cloud rest (i + 1) i
    else brLoopH s cloud rest (i + 1) index

/-- Store-passing `bottomRight` (point-libs.js lines 456-468). -/
noncomputable def bottomRightH (s : Store) (cloud : List ℕ) : ℕ × Store :=
  (brLoopH s cloud cloud 0 0, s)

open Classical in
/-- Store-passing variant of the `closestPointToLine` loop. -/
noncomputable def closestLoopH (s : Store) (a b c : ℝ) :
    List ℕ → ℕ → ℕ → ℝ → Option ℕ
  | [], _, minIndex, _ => some minIndex
  | j :: rest, i, minIndex, minV =>
    match numericIndexAccess (s j) i with
    | none => none
    | some q =>
      let d := |a * q.x + b * q.y + c|
      if d < minV then closestLoopH s a b c rest (i + 1) i d
      else closestLoopH s a b c rest (i + 1) minIndex minV

/-- Store-passing `closestPointToLine`. -/
noncomputable def closestPointToLineH (s : Store) (cloud : List ℕ)
    (i0 i1 : ℕ) : Option ℕ × Store :=
  let a := (s i0).y - (s i1).y
  let b := (s i1).x - (s i0).x
  let c := (s i0).x * (s i1).y - (s i1).x * (s i0).y
  (match cloud with
   | [] => none
   | j0 :: rest => closestLoopH s a b c rest 1 0 (|a * (s j0).x + b * (s j0).y + c|),
   s)

/-- Store-passing `pointToLineDistancee`. -/
noncomputable def pointToLineDistanceeH (s : Store) (i0 i1 ip : ℕ) : ℝ × Store :=
  let vx := (s i1).x - (s i0).x
  let vy := (s i1).y - (s i0).y
  let wx := (s ip).x - (s i0).x
  let wy := (s ip).y - (s i0).y
  let c1 := vx * wx + vy * wy
  let c2 := vx * vx + vy * vy
  let b := c1 / c2
  let px := (s i0).x + b * vx
  let py := (s i0).y + b * vy
  let dx := (s ip).x - px
  let dy := (s ip).y - py
  (Real.sqrt (dx * dx + dy * dy), s)

open Classical in
/-- Store-passing `pointToSegmentDistance`. -/
noncomputable def pointToSegmentDistanceH (s : Store) (i0 i1 ip : ℕ) : ℝ × Store :=
  let vx := (s i1).x - (s i0).x
  let vy := (s i1).y - (s i0).y
  let wx := (s ip).x - (s i0).x
  let wy := (s ip).y - (s i0).y
  let c1 := wx * vx + wy * vy
  (if c1 ≤ 0 then Real.sqrt (wx * wx + wy * wy)
   else
     let c2 := vx * vx + vy * vy
     if c2 ≤ c1 then
       Real.sqrt (((s i1).x - (s ip).x) * ((s i1).x - (s ip).x) +
         ((s i1).y - (s ip).y) * ((s i1).y - (s ip).y))
     else
       let b := c1 / c2
       let px := (s i0).x + b * vx
       let py := (s i0).y + b * vy
       let dx := (s ip).x - px
       let dy := (s ip).y - py
       Real.sqrt (dx * dx + dy * dy), s)

open Classical in
/-- Store-passing `pointSegmentProjection`. -/
noncomputable def pointSegmentProjectionH (s : Store) (i0 i1 ip : ℕ) :
    Point × Store :=
  let p0x := (s i0).x
  let p0y := (s i0).y
  let p1x := (s i1).x
  let p1y := (s i1).y
  let px := (s ip).x
  let py := (s ip).y
  let dx := p1x - p0x
  let dy := p1y - p0y
  let d := dx * dx + dy * dy
  (if d < 0.0000001 then ⟨p0x, p0y⟩
   else
     let t := ((px - p0x) * (p1x - p0x) + (py - p0y) * (p1y - p0y)) / d
     if t < 0 then ⟨p0x, p0y⟩
     else if t > 1 then ⟨p1x, p1y⟩
     else ⟨(1 - t) * p0x + t * p1x, (1 - t) * p0y + t * p1y⟩, s)

open Classical in
/-- Store-passing `reflect`: a degenerate line returns the original array
object (`Sum.inl`, the same list of identities), otherwise a fresh array of
freshly constructed points is built (`Sum.inr`). -/
noncomputable def reflectH (s : Store) (cloud : List ℕ) (i0 i1 : ℕ) :
    (List ℕ ⊕ List Point) × Store :=
  let x0 := (s i0).x
  let y0 := (s i0).y
  let x1 := (s i1).x
  let y1 := (s i1).y
  let dx := x1 - x0
  let dy := y1 - y0
  let d := dx * dx + dy * dy
  (if |d| < 0.00000001 then Sum.inl cloud
   else
     let a := (dx * dx - dy * dy) / d
     let b := 2 * dx * dy / d
     Sum.inr (cloud.map fun j =>
       let u := (s j).x - x0
       let v := (s j).y - y0
       ⟨a * u + b * v + x0, b * u - a * v + y0⟩), s)

lemma closestLoopH_eq (s : Store) (a b c : ℝ) (l : List ℕ)
    (i minIndex : ℕ) (minV : ℝ) :
    closestLoopH s a b c l i minIndex minV =
      closestLoop a b c (l.map s) i minIndex minV := by
  cases l <;> rfl

/-- C8: no operation of the `TSMT$PointUtils` surface writes to the store of
point objects — every call leaves the store exactly as it was — the results
agree with the pure value-level operations, and `reflect` returns the original
array object only in the documented degenerate fallback, a freshly built
sequence of fresh points otherwise. -/
theorem pointUtils_no_mutation (s : Store) (o0 o1 : Option ℕ)
    (i0 i1 i2 i3 j : ℕ) (td : Bool) (d : ℝ) (cloud : List ℕ) :
    ((l2NormH s o0 o1).2 = s ∧
     (angleH s i0 i1 td).2 = s ∧
     (ratioH s i0 i1 i2).2 = s ∧
     (isParallelH s i0 i1 i2 i3).2 = s ∧
     (pointOnLineH s i0 i1 j).2 = s ∧
     (isLeftH s i0 i1 i2).2 = s ∧
     (projectH s i0 i1 d).2 = s ∧
     (bottomLeftH s cloud).2 = s ∧
     (bottomRightH s cloud).2 = s ∧
     (closestPointToLineH s cloud i0 i1).2 = s ∧
     (pointToLineDistanceeH s i0 i1 j).2 = s ∧
     (pointToSegmentDistanceH s i0 i1 j).2 = s ∧
     (pointSegmentProjectionH s i0 i1 j).2 = s ∧
     (reflectH s cloud i0 i1).2 = s) ∧
    ((l2NormH s o0 o1).1 = l2Norm (o0.map s) (o1.map s) ∧
     (angleH s i0 i1 td).1 = angle (s i0) (s i1) td ∧
     (ratioH s i0 i1 i2).1 = ratio (s i0) (s i1) (s i2) ∧
     ((isParallelH s i0 i1 i2 i3).1 ↔ isParallel (s i0) (s i1) (s i2) (s i3)) ∧
     ((pointOnLineH s i0 i1 j).1 ↔ pointOnLine (s i0) (s i1) (s j)) ∧
     ((isLeftH s i0 i1 i2).1 ↔ isLeft (s i0) (s i1) (s i2)) ∧
     (projectH s i0 i1 d).1 = project (s i0) (s i1) d ∧
     (closestPointToLineH s cloud i0 i1).1 =
       closestPointToLine (cloud.map s) (s i0) (s i1) ∧
     (pointToLineDistanceeH s i0 i1 j).1 =
       pointToLineDistancee (s i0) (s i1) (s j) ∧
     (pointToSegmentDistanceH s i0 i1 j).1 =
       pointToSegmentDistance (s i0) (s i1) (s j) ∧
     (pointSegmentProjectionH s i0 i1 j).1 =
       pointSegmentProjection (s i0) (s i1) (s j)) ∧
    ((((s i1).x - (s i0).x) * ((s i1).x - (s i0).x) +
        ((s i1).y - (s i0).y) * ((s i1).y - (s i0).y) < 0.00000001 →
      (reflectH s cloud i0 i1).1 = Sum.inl cloud) ∧
     (0.00000001 ≤
        ((s i1).x - (s i0).x) * ((s i1).x - (s i0).x) +
          ((s i1).y - (s i0).y) * ((s i1).y - (s i0).y) →
      (reflectH s cloud i0 i1).1 =
        Sum.inr (reflect (cloud.map s) (s i0) (s i1)))) := by
  refine ⟨⟨?_, rfl, rfl, rfl, rfl, rfl, rfl, rfl, rfl, rfl, rfl, rfl, rfl, rfl⟩,
    ⟨?_, rfl, rfl, Iff.rfl, Iff.rfl, Iff.rfl, rfl, ?_, rfl, rfl, rfl⟩,
    ?_, ?_⟩
  · cases o0 <;> cases o1 <;> rfl
  · cases o0 <;> cases o1 <;> rfl
  · cases cloud with
    | nil => rfl
    | cons j0 rest =>
      show closestLoopH s _ _ _ rest 1 0 _ = _
      rw [closestLoopH_eq]
      rfl
  · intro h
    show (if |((s i1).x - (s i0).x) * ((s i1).x - (s i0).x) +
        ((s i1).y - (s i0).y) * ((s i1).y - (s i0).y)| < 0.00000001 then _ else _) = _
    rw [if_pos]
    rwa [abs_of_nonneg (reflect_d_nonneg (s i0) (s i1))]
  · intro h
    have hcond : ¬(|((s i1).x - (s i0).x) * ((s i1).x - (s i0).x) +
        ((s i1).y - (s i0).y) * ((s i1).y - (s i0).y)| < 0.00000001) := by
      rw [abs_of_nonneg (reflect_d_nonneg (s i0) (s i1))]
      exact not_lt.mpr h
    show (if |((s i1).x - (s i0).x) * ((s i1).x - (s i0).x) +
        ((s i1).y - (s i0).y) * ((s i1).y - (s i0).y)| < 0.00000001 then _ else _) = _
    rw [if_neg hcond, reflect_nondegenerate _ _ _ h, List.map_map]
    rfl

/-- Witness for C8: the constant store at the origin, a one-element cloud, and
coincident line points (so the degenerate `reflect` fallback fires). -/
theorem pointUtils_no_mutation_witness :
    (l2NormH (fun _ => ⟨0, 0⟩) (some 0) (some 0)).2 = (fun _ => (⟨0, 0⟩ : Point)) ∧
    (reflectH (fun _ => ⟨0, 0⟩) [0] 0 1).1 = Sum.inl [0] := by
  have h := pointUtils_no_mutation (fun _ => ⟨0, 0⟩) (some 0) (some 0)
    0 1 2 3 0 true 1 [0]
  exact ⟨h.1.1, h.2.2.1 (by norm_num)⟩

end PointLibs
